import Mathlib

/-!
Verification of the scheduling core of the `sistema-agendamento-inclusivo`
repository (slot validation, appointment booking, rescheduling, and the
token-gated confirm/cancel lifecycle), as a shallow embedding in Lean 4.

Modelling conventions
=====================

* UTC instants are natural numbers counting minutes since an epoch that falls
  on a Monday 00:00 UTC.  Python's `datetime.weekday()` (Monday = 0) then
  becomes `weekdayOf m = m / 1440 % 7`, and `datetime.time()` becomes
  `timeOf m = m % 1440`.  All durations in the source are whole minutes
  (`slot_minutes : int`), so minute granularity is faithful.
* SQLAlchemy rows become Lean structures with the columns declared by
  `app/models/appointment.py`, `app/models/availability.py` and
  `app/models/appointment_token.py`.  UUID tokens are modelled as `Nat`
  (only identity matters).
* The database tables become `List` fields of a `St` (state) structure.  The
  storage-level constraints of the live schema (the partial unique index
  `ux_appt_prof_start_active` of migration
  `ee2014276ce2_partial_unique_index_on_active_slots.py`, and the check
  constraint `ck_appt_time_order`) are modelled as guards executed as part of
  each write: a write whose result would violate them leaves the state
  unchanged and returns the outcome the route code produces for the
  corresponding `IntegrityError` (409 where the route translates it, a
  generic storage error where it does not).
* Each HTTP operation becomes a pure function `St → St × Outcome`.
-/

namespace SAI

/-- Appointment status enum from `app/models/appointment.py`
(`AppointmentStatus`). -/
inductive Status where
  | SCHEDULED
  | CONFIRMED
  | CANCELLED
  | DONE
deriving DecidableEq

/-- Token kind enum from `app/models/appointment_token.py` (`TokenKind`). -/
inductive TokenKind where
  | CONFIRM
  | CANCEL
deriving DecidableEq

/-- Availability row (`app/models/availability.py`): a recurring weekly UTC
window.  `starts_utc`/`ends_utc` are times of day in minutes (the model's
`Time()` columns), `weekday` is 0 = Monday .. 6 = Sunday. -/
structure Availability where
  professional_id : Nat
  weekday : Nat
  starts_utc : Nat
  ends_utc : Nat
deriving DecidableEq

/-- Appointment row (`app/models/appointment.py`).  Instants are minutes
since the Monday epoch. -/
structure Appt where
  id : Nat
  student_id : Nat
  professional_id : Nat
  service : String
  location : Option String
  status : Status
  starts_at : Nat
  ends_at : Nat
  created_at : Nat
  updated_at : Nat
deriving DecidableEq

/-- AppointmentToken row (`app/models/appointment_token.py`).  The UUID
primary key is modelled as a `Nat`. -/
structure Token where
  token : Nat
  appointment_id : Nat
  kind : TokenKind
  email : String
  expires_at : Nat
  consumed_at : Option Nat
  created_at : Nat
deriving DecidableEq

/-- UTC weekday (Monday = 0) of an instant, mirroring Python's
`datetime.weekday()` for our Monday-based epoch. -/
def weekdayOf (m : Nat) : Nat := m / 1440 % 7

/-- Time of day in minutes of an instant, mirroring `datetime.time()`. -/
def timeOf (m : Nat) : Nat := m % 1440

/-- Statuses covered by the partial unique index
`ux_appt_prof_start_active` (`status IN ('SCHEDULED','CONFIRMED')`). -/
def activeStatus : Status → Bool
  | .SCHEDULED => true
  | .CONFIRMED => true
  | .CANCELLED => false
  | .DONE => false

/-- Availability windows of a professional for a given UTC weekday, in query
order.  Mirrors the query + list comprehension shared by
`validate_slot` (`app/services/slot_validator.py`) and
`_fits_availability` (`app/api/v1/appointments_wizard.py`):
`db.query(Availability).filter(professional_id == pid)` followed by
`[.. for a in avs if a.weekday == start_utc.weekday()]`. -/
def dayWindows (avs : List Availability) (pid wd : Nat) : List (Nat × Nat) :=
  ((avs.filter (fun a => a.professional_id == pid)).filter
      (fun a => a.weekday == wd)).map (fun a => (a.starts_utc, a.ends_utc))

/-- Literal embedding of `validate_slot`
(`app/services/slot_validator.py`, lines 12–51).

The Python list comprehension is
`[(a.start_utc, a.end_utc) for a in avs if a.weekday == start_utc.weekday()]`,
but the `Availability` model declares the columns `starts_utc` / `ends_utc`
(there is no `start_utc` attribute), so the comprehension raises
`AttributeError` as soon as one row passes the `a.weekday == ...` filter.
Likewise the later conflict query names `Appointment.starts_at_utc` /
`ends_at_utc`, which the `Appointment` model does not declare
(columns are `starts_at` / `ends_at`); that code is unreachable because the
comprehension raises first.  The function therefore either returns the
"Fora do horário de atendimento." early exit (no weekday match) or raises;
the `Except.error` branch models the raised `AttributeError`. -/
def validate_slot (avs : List Availability) (_appts : List Appt)
    (professional_id start_utc _slot_minutes : Nat) :
    Except String (Bool × Option String) :=
  let avsP := avs.filter (fun a => a.professional_id == professional_id)
  if avsP.any (fun a => a.weekday == weekdayOf start_utc) then
    .error "AttributeError: Availability object has no attribute start_utc"
  else
    .ok (false, some "Fora do horário de atendimento.")

/-- Embedding of `validate_slot` with the attribute-name slip resolved to the
columns the models actually declare (`Availability.starts_utc/ends_utc`,
`Appointment.starts_at/ends_at`), i.e. the function the surrounding code and
its docstring manifestly intend.  Apart from those four attribute reads the
body is line-for-line the source: availability windows of the UTC weekday,
the containment test `s_t >= a0 and e_t <= a1` over times of day, then the
half-open overlap query against appointments with `status != CANCELLED`. -/
def validate_slot_fixed (avs : List Availability) (appts : List Appt)
    (professional_id start_utc slot_minutes : Nat) : Bool × Option String :=
  let end_utc := start_utc + slot_minutes
  let day_avs := dayWindows avs professional_id (weekdayOf start_utc)
  if day_avs.isEmpty then
    (false, some "Fora do horário de atendimento.")
  else
    let s_t := timeOf start_utc
    let e_t := timeOf end_utc
    let fits := day_avs.any (fun w => decide (w.1 ≤ s_t) && decide (e_t ≤ w.2))
    if !fits then
      (false, some "Fora da janela disponível.")
    else
      let conflicts := appts.filter (fun b =>
        b.professional_id == professional_id && !(b.status == Status.CANCELLED)
          && decide (b.starts_at < end_utc) && decide (b.ends_at > start_utc))
      if !conflicts.isEmpty then
        (false, some "Horário já ocupado.")
      else
        (true, none)

/-- Embedding of `_fits_availability`
(`app/api/v1/appointments_wizard.py`, lines 85–101): the availability-window
half of the validation, used by the reschedule route.  This helper reads the
correct column names (`a.starts_utc, a.ends_utc`) in the source. -/
def fits_availability (avs : List Availability)
    (professional_id start_utc minutes : Nat) : Bool :=
  let end_utc := start_utc + minutes
  let day_avs := dayWindows avs professional_id (weekdayOf start_utc)
  if day_avs.isEmpty then
    false
  else
    day_avs.any (fun w =>
      decide (w.1 ≤ timeOf start_utc) && decide (timeOf end_utc ≤ w.2))

/-- Database state: the `appointments` and `appointment_tokens` tables plus
the surrogate-id sequences (`nextApptId` models the integer primary-key
sequence, `nextTokenId` models `uuid4` freshness). -/
structure St where
  appts : List Appt
  tokens : List Token
  nextApptId : Nat
  nextTokenId : Nat
deriving DecidableEq

/-- Empty database: the initial state. -/
def St.init : St := ⟨[], [], 1, 1⟩

/-- Request body of `POST /appointments` (`CreateAppointmentIn` in
`app/schemas/appointments.py`) plus the data the route reads from related
rows: `service` is copied from `prof.speciality` and `email` from the
guardian user. -/
structure CreateReq where
  student_id : Nat
  professional_id : Nat
  starts_at : Nat
  slot_minutes : Nat
  location : Option String
  service : String
  email : String

/-- Outcome of `create_appointment`. -/
inductive CreateOut where
  | invalidInput
  | conflict (reason : String)
  | created (id : Nat)
deriving DecidableEq

/-- Predicate of the partial unique index `ux_appt_prof_start_active`
evaluated against an existing row: an INSERT/UPDATE putting an active row at
`(pid, start)` violates the index exactly when such a row already exists. -/
def activeDup (appts : List Appt) (selfId pid start : Nat) : Bool :=
  appts.any (fun b =>
    b.id != selfId && activeStatus b.status
      && b.professional_id == pid && b.starts_at == start)

/-- Embedding of `create_appointment`
(`app/api/v1/appointments_wizard.py`, lines 155–251).

The route first checks the pydantic schema (`slot_minutes` is
`Field(30, ge=5, le=240)` — out-of-range bodies are rejected before the
handler runs), loads professional/student (read-only 404/403 gates, not
modelled), validates the slot, inserts the SCHEDULED row, creates the
CONFIRM/CANCEL tokens (`create_tokens_for_appointment`, `hours=48`) and
commits.  A unique-index `IntegrityError` at flush/commit time is translated
to the same 409 conflict as a validation failure.  The slot validation is
`validate_slot_fixed`: the literal `validate_slot` raises `AttributeError`
whenever a weekday window exists (see `validate_slot` above and
`create_appointment_literal` below), which would make this route unable to
ever create a row; the transition system models the intended column reads,
which strictly enlarges the set of reachable states. -/
def create_appointment (avs : List Availability) (now : Nat) (p : CreateReq)
    (s : St) : St × CreateOut :=
  if p.slot_minutes < 5 || 240 < p.slot_minutes then
    (s, .invalidInput)
  else
    let v := validate_slot_fixed avs s.appts p.professional_id p.starts_at p.slot_minutes
    if v.1 = false then
      (s, .conflict (v.2.getD "Horário indisponível"))
    else if s.appts.any (fun b => activeStatus b.status
        && b.professional_id == p.professional_id
        && b.starts_at == p.starts_at) then
      (s, .conflict "Ops, o horário acabou de ser reservado por outra pessoa.")
    else
      let ap : Appt :=
        { id := s.nextApptId
          student_id := p.student_id
          professional_id := p.professional_id
          service := p.service
          location := p.location
          status := .SCHEDULED
          starts_at := p.starts_at
          ends_at := p.starts_at + p.slot_minutes
          created_at := now
          updated_at := now }
      let t1 : Token :=
        { token := s.nextTokenId, appointment_id := ap.id, kind := .CONFIRM
          email := p.email, expires_at := now + 48 * 60, consumed_at := none
          created_at := now }
      let t2 : Token :=
        { token := s.nextTokenId + 1, appointment_id := ap.id, kind := .CANCEL
          email := p.email, expires_at := now + 48 * 60, consumed_at := none
          created_at := now }
      ({ appts := s.appts ++ [ap]
         tokens := s.tokens ++ [t1, t2]
         nextApptId := s.nextApptId + 1
         nextTokenId := s.nextTokenId + 2 }, .created ap.id)

/-- Outcome of `reschedule_appointment`. -/
inductive ResOut where
  | notFound
  | leadTime
  | invalidDuration
  | outsideHours
  | conflictOther
  | conflictUnique
  | rescheduled
deriving DecidableEq

/-- Embedding of `reschedule_appointment`
(`app/api/v1/appointments_wizard.py`, lines 254–343), excluding the
authorization gate `_ensure_can_manage_appointment` (a read-only 403 that
never mutates state; authorization is delegated per the route's comment).

Steps in source order: load the row (404), the 6-hour lead-time check
(`new_start < datetime.now(UTC) + timedelta(hours=6)` → 400), duration
recomputation `int((ends_at - starts_at).total_seconds() // 60)` with a
`<= 0` reject, `_fits_availability` (409), the conflict query against other
non-CANCELLED appointments with the half-open overlap test (409), then the
in-place mutation of `starts_at`/`ends_at` (`updated_at` via `onupdate`) and
a commit whose unique-index `IntegrityError` is translated to 409. -/
def reschedule_appointment (avs : List Availability)
    (now appointment_id new_start : Nat) (s : St) : St × ResOut :=
  match s.appts.find? (fun a => a.id == appointment_id) with
  | none => (s, .notFound)
  | some a =>
    if new_start < now + 6 * 60 then
      (s, .leadTime)
    else
      let slot_minutes := a.ends_at - a.starts_at
      if slot_minutes == 0 then
        (s, .invalidDuration)
      else if !(fits_availability avs a.professional_id new_start slot_minutes) then
        (s, .outsideHours)
      else
        let new_end := new_start + slot_minutes
        if s.appts.any (fun b =>
            b.professional_id == a.professional_id
              && !(b.status == Status.CANCELLED) && b.id != a.id
              && decide (b.starts_at < new_end) && decide (b.ends_at > new_start)) then
          (s, .conflictOther)
        else
          let a' := { a with starts_at := new_start, ends_at := new_end, updated_at := now }
          if activeStatus a'.status && activeDup s.appts a.id a.professional_id new_start then
            (s, .conflictUnique)
          else
            ({ s with appts := s.appts.map (fun b => if b.id == a.id then a' else b) },
              .rescheduled)

/-- Outcome of the public token-redemption routes. -/
inductive TokOut where
  | tokenInvalid
  | alreadyUsed
  | expired
  | apNotFound
  | storageError
  | redeemed
deriving DecidableEq

/-- Embedding of `confirm_appointment`
(`app/api/v1/public_appointments.py`, lines 94–121).

Checks in source order: token lookup and kind (`if not t or t.kind !=
TokenKind.CONFIRM` → 404), `consumed_at is not None` → 410,
`expires_at <= now` → 410, appointment lookup (404), then
`ap.status = CONFIRMED` (regardless of the prior status), `_consume`
(`consumed_at = now`) and `db.commit()`.  The route has no `IntegrityError`
handler: if the now-active row collides with another active row on
`(professional_id, starts_at)` the partial unique index makes the commit
raise, the transaction rolls back, and the client gets a 500
(`storageError` here, with the state unchanged). -/
def confirm_appointment (now tok : Nat) (s : St) : St × TokOut :=
  match s.tokens.find? (fun t => t.token == tok) with
  | none => (s, .tokenInvalid)
  | some t =>
    if !(t.kind == TokenKind.CONFIRM) then (s, .tokenInvalid)
    else if !(t.consumed_at == none) then (s, .alreadyUsed)
    else if t.expires_at ≤ now then (s, .expired)
    else
      match s.appts.find? (fun a => a.id == t.appointment_id) with
      | none => (s, .apNotFound)
      | some ap =>
        if activeDup s.appts ap.id ap.professional_id ap.starts_at then
          (s, .storageError)
        else
          let ap' := { ap with status := Status.CONFIRMED, updated_at := now }
          let t' := { t with consumed_at := some now }
          ({ s with
              appts := s.appts.map (fun b => if b.id == ap.id then ap' else b)
              tokens := s.tokens.map (fun u => if u.token == t.token then t' else u) },
            .redeemed)

/-- Embedding of `cancel_appointment`
(`app/api/v1/public_appointments.py`, lines 124–145): identical checks with
kind CANCEL, then `ap.status = CANCELLED` regardless of prior status.  The
updated row is inactive, so it can never violate the partial unique index
(the index only covers SCHEDULED/CONFIRMED rows) and the commit succeeds. -/
def cancel_appointment (now tok : Nat) (s : St) : St × TokOut :=
  match s.tokens.find? (fun t => t.token == tok) with
  | none => (s, .tokenInvalid)
  | some t =>
    if !(t.kind == TokenKind.CANCEL) then (s, .tokenInvalid)
    else if !(t.consumed_at == none) then (s, .alreadyUsed)
    else if t.expires_at ≤ now then (s, .expired)
    else
      match s.appts.find? (fun a => a.id == t.appointment_id) with
      | none => (s, .apNotFound)
      | some ap =>
        let ap' := { ap with status := Status.CANCELLED, updated_at := now }
        let t' := { t with consumed_at := some now }
        ({ s with
            appts := s.appts.map (fun b => if b.id == ap.id then ap' else b)
            tokens := s.tokens.map (fun u => if u.token == t.token then t' else u) },
          .redeemed)

/-- States reachable from the empty database by any sequence of the four
operations (with arbitrary request parameters and clock readings). -/
inductive Reachable (avs : List Availability) : St → Prop where
  | init : Reachable avs St.init
  | create (now : Nat) (p : CreateReq) {s : St} :
      Reachable avs s → Reachable avs (create_appointment avs now p s).1
  | reschedule (now id ns : Nat) {s : St} :
      Reachable avs s → Reachable avs (reschedule_appointment avs now id ns s).1
  | confirm (now tok : Nat) {s : St} :
      Reachable avs s → Reachable avs (confirm_appointment now tok s).1
  | cancel (now tok : Nat) {s : St} :
      Reachable avs s → Reachable avs (cancel_appointment now tok s).1

/-- States reachable when CONFIRM tokens are only ever redeemed against
appointments that are not CANCELLED at redemption time.  Identical to
`Reachable` except for the side condition on the `confirm` step; this is the
restriction under which the no-overlap property of claim C4 holds (the
unrestricted system can resurrect a cancelled appointment into a slot that
has been re-booked at a different start, see the C4 counterexample). -/
inductive ReachableSafe (avs : List Availability) : St → Prop where
  | init : ReachableSafe avs St.init
  | create (now : Nat) (p : CreateReq) {s : St} :
      ReachableSafe avs s → ReachableSafe avs (create_appointment avs now p s).1
  | reschedule (now id ns : Nat) {s : St} :
      ReachableSafe avs s → ReachableSafe avs (reschedule_appointment avs now id ns s).1
  | confirm (now tok : Nat) {s : St} :
      ReachableSafe avs s →
      (∀ t, s.tokens.find? (fun u => u.token == tok) = some t →
        ∀ a, s.appts.find? (fun b => b.id == t.appointment_id) = some a →
          a.status ≠ Status.CANCELLED) →
      ReachableSafe avs (confirm_appointment now tok s).1
  | cancel (now tok : Nat) {s : St} :
      ReachableSafe avs s → ReachableSafe avs (cancel_appointment now tok s).1

/-- Outcome of a single `POST /appointments` call as the literal source
executes it (validation by the literal `validate_slot`). -/
inductive CreateLitOut where
  | sysError (msg : String)
  | conflict (reason : String)
  | created
deriving DecidableEq

/-- Literal outcome of `create_appointment`: the route calls `validate_slot`
before writing, so the `AttributeError` raised by the literal function
propagates out of the handler (the `try/except` blocks only wrap
`db.flush()`/`db.commit()`), producing a generic 500 response
(`sysError`). -/
def create_appointment_literal (avs : List Availability) (appts : List Appt)
    (professional_id start_utc slot_minutes : Nat) : CreateLitOut :=
  match validate_slot avs appts professional_id start_utc slot_minutes with
  | .error m => .sysError m
  | .ok (ok, r) =>
    if ok then .created else .conflict (r.getD "Horário indisponível")

/-- Parameters shared by the N concurrent `create_appointment` calls of the
race model of claim C2: all calls target the same
`(professional_id, starts_at)` slot against the same initial table `d0`. -/
structure RaceParams where
  avs : List Availability
  d0 : List Appt
  professional_id : Nat
  starts_at : Nat
  slot_minutes : Nat
  student_id : Nat
  location : Option String
  service : String

/-- Row inserted by the winning call (the surrogate id and timestamps are
irrelevant to the race outcome and fixed to 0). -/
def raceRow (p : RaceParams) : Appt :=
  { id := 0, student_id := p.student_id, professional_id := p.professional_id
    service := p.service, location := p.location, status := .SCHEDULED
    starts_at := p.starts_at, ends_at := p.starts_at + p.slot_minutes
    created_at := 0, updated_at := 0 }

/-- Atomic events of the race model.  Each call `i` performs one `validate`
(the pre-flight `validate_slot` read) and, if that validation passed, one
`write` (the INSERT, arbitrated atomically by the storage engine through the
partial unique index); the interleaving of events across calls is
arbitrary. -/
inductive REv where
  | validate (i : Nat)
  | write (i : Nat)
deriving DecidableEq

/-- Call index of a race event. -/
def REv.call : REv → Nat
  | .validate i => i
  | .write i => i

/-- Race state: the appointments table plus, per call, the remembered
validation outcome and the response already sent (`some true` = 201 created,
`some false` = 409 conflict, `none` = still in flight). -/
structure RaceSt where
  db : List Appt
  vres : Nat → Option Bool
  res : Nat → Option Bool

/-- Initial race state over the shared table `d0`. -/
def raceInit (p : RaceParams) : RaceSt :=
  ⟨p.d0, fun _ => none, fun _ => none⟩

/-- One atomic step of the race.  `validate i` runs `validate_slot_fixed`
against the current table: on failure the call answers 409 immediately (the
route raises an HTTP 409 without writing); on success the call proceeds to
its write.  `write i` re-checks the partial unique index atomically: a
duplicate active `(professional_id, starts_at)` row turns the
`IntegrityError` into the same 409 (the `"unique" in str(e.orig).lower()` /
pgcode 23505 branch of the route), otherwise the row is inserted and the
call answers 201.  `none` marks ill-formed schedules (validating twice,
writing before validating or after answering). -/
def raceStep (p : RaceParams) (s : RaceSt) (e : REv) : Option RaceSt :=
  match e with
  | .validate i =>
    match s.vres i with
    | some _ => none
    | none =>
      if (validate_slot_fixed p.avs s.db p.professional_id p.starts_at p.slot_minutes).1 then
        some { s with vres := fun j => if j = i then some true else s.vres j }
      else
        some { s with vres := fun j => if j = i then some false else s.vres j
                      res := fun j => if j = i then some false else s.res j }
  | .write i =>
    match s.vres i, s.res i with
    | some true, none =>
      if s.db.any (fun b => activeStatus b.status
          && b.professional_id == p.professional_id
          && b.starts_at == p.starts_at) then
        some { s with res := fun j => if j = i then some false else s.res j }
      else
        some { s with db := s.db ++ [raceRow p]
                      res := fun j => if j = i then some true else s.res j }
    | _, _ => none

/-- Run a schedule of race events from a state. -/
def runRace (p : RaceParams) : RaceSt → List REv → Option RaceSt
  | s, [] => some s
  | s, e :: es =>
    match raceStep p s e with
    | none => none
    | some s' => runRace p s' es

/-- Inductive invariant of the race over `N` calls: calls beyond `N` have
not acted, and either no write has landed (table still `d0`, nobody has been
answered) or exactly the winning call `w` has inserted the row and every
other call is answered 409 if at all. -/
def RaceInv (p : RaceParams) (N : Nat) (s : RaceSt) : Prop :=
  (∀ i, N ≤ i → s.vres i = none ∧ s.res i = none) ∧
  ((s.db = p.d0 ∧ ∀ i, s.res i = none) ∨
   (s.db = p.d0 ++ [raceRow p] ∧ ∃ w, w < N ∧ s.vres w = some true ∧
     s.res w = some true ∧ ∀ j, j ≠ w → s.res j ≠ some true))

/-- Conversion from `app/api/v1/availability.py`,
`_time_local_to_utc_time_for_weekday` (lines 33–46): compose the reference
Monday (`_REF_MONDAY`, 2025-01-06 — the epoch of the model) plus `weekday`
days with the local wall time `t_local`, attach the zone, convert to UTC and
keep only (hour, minute).  A `ZoneInfo` has a single fixed `offset` (minutes
east of UTC) during the reference week, so the produced instant is
`weekday*1440 + t_local - offset` and the stored time of day is that instant
mod 1440. -/
def time_local_to_utc_time_for_weekday (t_local weekday : Nat) (offset : Int) : Nat :=
  (((weekday : Int) * 1440 + t_local - offset).emod 1440).toNat

/-- UTC weekday (0 = Monday) of the instant produced by the reference-Monday
conversion — the weekday `dt_local.astimezone(UTC)` actually falls on. -/
def utcWeekdayOfLocal (weekday t_local : Nat) (offset : Int) : Nat :=
  ((((weekday : Int) * 1440 + t_local - offset).emod 10080) / 1440).toNat

/-- Row stored by `create_availability`
(`app/api/v1/availability.py`, lines 153–204): both endpoints are converted
with `_time_local_to_utc_time_for_weekday`, a window that is inverted after
conversion is rejected with 400 ("Janela inválida após conversão para UTC"),
and the row is stored with `weekday=payload.weekday` — the local weekday of
the payload, unchanged. -/
def create_availability_row (professional_id weekday start_local end_local : Nat)
    (offset : Int) : Except String Availability :=
  let start_utc_t := time_local_to_utc_time_for_weekday start_local weekday offset
  let end_utc_t := time_local_to_utc_time_for_weekday end_local weekday offset
  if end_utc_t ≤ start_utc_t then
    .error "Janela inválida após conversão para UTC"
  else
    .ok ⟨professional_id, weekday, start_utc_t, end_utc_t⟩

/-- Timezone with (at most) one offset transition, the semantics fragment of
`zoneinfo.ZoneInfo` that `app/utils/tz.py` relies on: at UTC instant `tau`
the UTC offset changes from `off1` to `off2` (minutes east of UTC).  A zone
without DST is the case `off1 = off2`. -/
structure TzModel where
  tau : Int
  off1 : Int
  off2 : Int

/-- UTC offset in force at a UTC instant (used by `astimezone(tz)`). -/
def offsetAtUtc (tz : TzModel) (u : Int) : Int :=
  if u < tz.tau then tz.off1 else tz.off2

/-- UTC offset attributed to a naive local wall time with `fold=0`, the PEP
495 disambiguation `datetime.combine(d, t).replace(tzinfo=tz)` uses: wall
times before the transition — including spring-forward gap times and the
first (earlier) copy of fall-back ambiguous times — get the pre-transition
offset `off1`, later wall times get `off2`.  The wall-clock boundary between
the two regimes is `tau + max off1 off2` in both directions of shift. -/
def offsetAtWall (tz : TzModel) (w : Int) : Int :=
  if w < tz.tau + max tz.off1 tz.off2 then tz.off1 else tz.off2

/-- Embedding of `combine_local_to_utc` (`app/utils/tz.py`, lines 45–55):
`datetime.combine(d, t).replace(tzinfo=tz).astimezone(UTC)`.  Dates are day
numbers (`d`), times minutes of the day (`t`), instants minutes. -/
def combine_local_to_utc (d : Int) (t : Nat) (tz : TzModel) : Int :=
  (d * 1440 + t) - offsetAtWall tz (d * 1440 + t)

/-- Embedding of `split_utc_to_local` (`app/utils/tz.py`, lines 58–67):
`dtu.astimezone(tz)` then the `(loc.date(), loc.timetz())` split.  Python
splits a wall time into date and time by floor division by the day length,
which for the positive divisor 1440 is the Euclidean `/` and `%` of `Int`. -/
def split_utc_to_local (u : Int) (tz : TzModel) : Int × Int :=
  let wall := u + offsetAtUtc tz u
  (wall / 1440, wall % 1440)

/-- Relation between two appointment rows: if both are active and belong to
the same professional, their half-open `[starts_at, ends_at)` intervals do
not overlap (the §4.3/§4.4 overlap test `starts < otherEnd ∧ ends >
otherStart`, negated). -/
def OverRel (x y : Appt) : Prop :=
  activeStatus x.status = true → activeStatus y.status = true →
    x.professional_id = y.professional_id →
    ¬(x.starts_at < y.ends_at ∧ x.ends_at > y.starts_at)

instance : DecidableRel OverRel := fun x y =>
  inferInstanceAs (Decidable (activeStatus x.status = true →
    activeStatus y.status = true → x.professional_id = y.professional_id →
    ¬(x.starts_at < y.ends_at ∧ x.ends_at > y.starts_at)))

/-- No-overlap property of claim C4 over an appointments table: no two
distinct rows of the same professional, both with an active status, have
overlapping half-open `[starts_at, ends_at)` intervals. -/
def NoOverlapActive (l : List Appt) : Prop :=
  l.Pairwise OverRel

/-- Pairwise relation maintained by every write of the transition system:
distinct surrogate ids, and no two active rows of one professional share a
`starts_at` (the partial unique index `ux_appt_prof_start_active`). -/
def ApptRel (x y : Appt) : Prop :=
  x.id ≠ y.id ∧
    (activeStatus x.status = true → activeStatus y.status = true →
      x.professional_id = y.professional_id → x.starts_at ≠ y.starts_at)

/-- Inductive invariant of the transition system used to prove claim C1. -/
structure Inv (s : St) : Prop where
  idsBound : ∀ a ∈ s.appts, a.id < s.nextApptId
  pair : s.appts.Pairwise ApptRel
  noDone : ∀ a ∈ s.appts, a.status ≠ Status.DONE

/-- Fixture: professional 1 is available Mondays 09:00–12:00 UTC. -/
def avs0 : List Availability := [⟨1, 0, 540, 720⟩]

/-- Fixture: create a 60-minute appointment for student 7 with professional
1 on Monday 09:00 UTC (instant 540 of the Monday epoch). -/
def reqA : CreateReq := ⟨7, 1, 540, 60, none, "fono", "resp"⟩

/-- Fixture: same professional, Monday 09:30 UTC. -/
def reqB : CreateReq := ⟨7, 1, 570, 60, none, "fono", "resp"⟩

/-- State after creating appointment 1 (09:00–10:00, SCHEDULED) with its
CONFIRM token 1 and CANCEL token 2. -/
def sA : St := (create_appointment avs0 0 reqA St.init).1

/-- State after redeeming CANCEL token 2: appointment 1 is CANCELLED. -/
def sB : St := (cancel_appointment 10 2 sA).1

/-- State after creating appointment 2 (09:30–10:30, SCHEDULED) — allowed,
since appointment 1 is CANCELLED. -/
def sC : St := (create_appointment avs0 20 reqB sB).1

/-- State after redeeming CONFIRM token 1 of the cancelled appointment 1:
the row is resurrected to CONFIRMED (09:00–10:00) and now overlaps the
active appointment 2 (09:30–10:30). -/
def sD : St := (confirm_appointment 30 1 sC).1

/-- State after legitimately confirming the SCHEDULED appointment 1. -/
def sE : St := (confirm_appointment 30 1 sA).1

/-- Fixture for the C6 counterexample: appointment 1 of professional 1 at
09:00 is CANCELLED, appointment 2 occupies the same `(professional_id,
starts_at)` actively, and CONFIRM token 1 for appointment 1 is live. -/
def c6St : St :=
  { appts := [⟨1, 7, 1, "fono", none, .CANCELLED, 540, 600, 0, 0⟩,
              ⟨2, 8, 1, "fono", none, .SCHEDULED, 540, 600, 0, 0⟩]
    tokens := [⟨1, 1, .CONFIRM, "resp", 100, none, 0⟩]
    nextApptId := 3
    nextTokenId := 2 }

/-- Fixture for the C6 amended witness: a single SCHEDULED appointment with
a live CONFIRM token. -/
def c6W : St :=
  { appts := [⟨1, 7, 1, "fono", none, .SCHEDULED, 540, 600, 0, 0⟩]
    tokens := [⟨1, 1, .CONFIRM, "resp", 100, none, 0⟩]
    nextApptId := 2
    nextTokenId := 2 }

/-- Fixture for the C5 counterexample: a DONE appointment of professional 1
occupies 09:00–10:00 Monday. -/
def doneHist : List Appt := [⟨1, 7, 1, "fono", none, .DONE, 540, 600, 0, 0⟩]

/-- Fixture for C5: a CANCELLED appointment of professional 1 at
09:00–10:00 Monday. -/
def cancHist : List Appt := [⟨1, 7, 1, "fono", none, .CANCELLED, 540, 600, 0, 0⟩]

/-- Fixture state whose only appointment history is `cancHist`. -/
def cancSt : St := ⟨cancHist, [], 2, 1⟩

/-- Fixture state whose only appointment history is `doneHist`. -/
def doneSt : St := ⟨doneHist, [], 2, 1⟩

/-- Race fixture: two calls race for Monday 09:00 of professional 1 over an
empty table. -/
def raceP0 : RaceParams := ⟨avs0, [], 1, 540, 60, 7, none, "fono"⟩

/-- Race fixture schedule: both calls validate before either write. -/
def raceEvs0 : List REv := [.validate 0, .validate 1, .write 0, .write 1]

/-- Timezone fixture with a spring-forward transition at instant 10080 (the
start of week 2): offsets UTC−5 before, UTC−4 after — wall times 02:00–03:00
of day 6 do not exist. -/
def tzGap : TzModel := ⟨10080, -300, -240⟩

/-- Timezone fixture without DST (a constant UTC−3 offset, like present-day
America/Sao_Paulo). -/
def tzFixed : TzModel := ⟨0, -180, -180⟩

/-- Dispatch of the two public redemption routes by token kind, for stating
claim C6 once over both operations. -/
def redeemOp : TokenKind → Nat → Nat → St → St × TokOut
  | .CONFIRM => confirm_appointment
  | .CANCEL => cancel_appointment

/-- Status written by a successful redemption of each kind. -/
def redeemStatus : TokenKind → Status
  | .CONFIRM => .CONFIRMED
  | .CANCEL => .CANCELLED

/-- Whether the commit of a redemption violates the partial unique index:
only a CONFIRM redemption activates a row, so only it can collide with
another active row at the same `(professional_id, starts_at)`. -/
def redeemBlocked : TokenKind → St → Appt → Bool
  | .CONFIRM, s, ap => activeDup s.appts ap.id ap.professional_id ap.starts_at
  | .CANCEL, _, _ => false

/-- State produced by a successful redemption: the appointment's status is
overwritten by `redeemStatus` (regardless of its prior value, `updated_at`
refreshed by `onupdate`) and the token's `consumed_at` is set to `now`, in
the same transaction. -/
def redeemedState (k : TokenKind) (now : Nat) (s : St) (t : Token) (ap : Appt) : St :=
  { s with
      appts := s.appts.map (fun b =>
        if b.id == ap.id then { ap with status := redeemStatus k, updated_at := now } else b)
      tokens := s.tokens.map (fun u =>
        if u.token == t.token then { t with consumed_at := some now } else u) }

/-- Token of the `c6W` fixture. -/
def tokW : Token := ⟨1, 1, .CONFIRM, "resp", 100, none, 0⟩

/-- Row produced by a successful reschedule of `a` to `ns` at time `now`:
only `starts_at`, `ends_at` and `updated_at` change, and the duration
`ends_at - starts_at` is preserved. -/
def rescheduled_row (a : Appt) (ns now : Nat) : Appt :=
  { a with starts_at := ns, ends_at := ns + (a.ends_at - a.starts_at), updated_at := now }

/-- The appointment row created by the `sA` fixture. -/
def apA : Appt := ⟨1, 7, 1, "fono", none, .SCHEDULED, 540, 600, 0, 0⟩

/-- State after rescheduling appointment 1 of `sA` to the following Monday
09:00 UTC (instant 10620). -/
def sR : St := (reschedule_appointment avs0 0 1 10620 sA).1

instance (l : List Appt) : Decidable (NoOverlapActive l) :=
  inferInstanceAs (Decidable (l.Pairwise _))

theorem statusNe_CANCELLED_of_active {st : Status} (h : activeStatus st = true) :
    st ≠ Status.CANCELLED := by
  cases st <;> simp_all [activeStatus]

theorem statusNe_DONE_of_active {st : Status} (h : activeStatus st = true) :
    st ≠ Status.DONE := by
  cases st <;> simp_all [activeStatus]

theorem active_of_ne {st : Status} (h1 : st ≠ Status.CANCELLED)
    (h2 : st ≠ Status.DONE) : activeStatus st = true := by
  cases st <;> simp_all [activeStatus]

/-- Replacement lemma: mapping `b ↦ if b.id == a.id then a' else b` over a
list with pairwise-distinct ids preserves a pairwise relation, given the
relation holds between the replacement row and every other row (in both
orders). -/
theorem pairwise_replace {R : Appt → Appt → Prop} {l : List Appt}
    (hp : l.Pairwise R) (hids : l.Pairwise (fun x y => x.id ≠ y.id))
    {a a' : Appt}
    (h1 : ∀ y ∈ l, y.id ≠ a.id → R a' y)
    (h2 : ∀ y ∈ l, y.id ≠ a.id → R y a') :
    (l.map (fun b => if b.id == a.id then a' else b)).Pairwise R := by
  rw [List.pairwise_map]
  have hcomb := hp.and hids
  refine hcomb.imp_of_mem ?_
  intro x y hx hy hxy
  by_cases hxid : x.id = a.id <;> by_cases hyid : y.id = a.id
  · exact absurd (hxid.trans hyid.symm) hxy.2
  · simp only [hxid, beq_self_eq_true, if_pos, hyid, if_neg, beq_iff_eq]
    exact h1 y hy hyid
  · simp only [hxid, hyid, beq_iff_eq, if_pos, if_neg, if_true, if_false]
    exact h2 x hx hxid
  · simp only [hxid, hyid, beq_iff_eq, if_neg, if_false]
    exact hxy.1

theorem pairwise_ids {l : List Appt} (h : l.Pairwise ApptRel) :
    l.Pairwise (fun x y => x.id ≠ y.id) :=
  h.imp (fun hr => hr.1)

/-- UPDATE of a single row preserves the C1 invariant, provided the updated
row respects the partial unique index against every other row. -/
theorem inv_replace {s : St} (h : Inv s) {a a' : Appt} {tks : List Token} {nt : Nat}
    (ha : a ∈ s.appts) (hid : a'.id = a.id) (hnd : a'.status ≠ Status.DONE)
    (hkey : ∀ y ∈ s.appts, y.id ≠ a.id → activeStatus a'.status = true →
      activeStatus y.status = true → a'.professional_id = y.professional_id →
      a'.starts_at ≠ y.starts_at) :
    Inv { appts := s.appts.map (fun b => if b.id == a.id then a' else b),
          tokens := tks, nextApptId := s.nextApptId, nextTokenId := nt } := by
  constructor
  · intro x hx
    rcases List.mem_map.mp hx with ⟨b, hb, rfl⟩
    by_cases hb' : b.id = a.id
    · simpa [hb', hid] using h.idsBound a ha
    · simpa [hb'] using h.idsBound b hb
  · refine pairwise_replace h.pair (pairwise_ids h.pair) ?_ ?_
    · intro y hy hyne
      exact ⟨by rw [hid]; exact fun he => hyne he.symm,
        fun h1 h2 h3 => hkey y hy hyne h1 h2 h3⟩
    · intro y hy hyne
      refine ⟨by rw [hid]; exact hyne, ?_⟩
      intro h1 h2 h3 h4
      exact hkey y hy hyne h2 h1 h3.symm h4.symm
  · intro x hx
    rcases List.mem_map.mp hx with ⟨b, hb, rfl⟩
    by_cases hb' : b.id = a.id
    · simpa [hb'] using hnd
    · simpa [hb'] using h.noDone b hb

theorem inv_create (avs : List Availability) (now : Nat) (p : CreateReq) {s : St}
    (h : Inv s) : Inv (create_appointment avs now p s).1 := by
  unfold create_appointment
  dsimp only
  split
  · exact h
  · split
    · exact h
    · split
      · exact h
      · next hdup =>
        constructor
        · intro a ha
          rcases List.mem_append.mp ha with ha | ha
          · exact Nat.lt_succ_of_lt (h.idsBound a ha)
          · simp only [List.mem_singleton] at ha
            subst ha
            exact Nat.lt_succ_self _
        · rw [List.pairwise_append]
          refine ⟨h.pair, by simp, ?_⟩
          intro x hx y hy
          simp only [List.mem_singleton] at hy
          subst hy
          constructor
          · exact Nat.ne_of_lt (h.idsBound x hx)
          · intro hxact hyact hprof hstarts
            exact hdup (List.any_eq_true.mpr ⟨x, hx, by
              simp [hxact, hprof, hstarts]⟩)
        · intro a ha
          rcases List.mem_append.mp ha with ha | ha
          · exact h.noDone a ha
          · simp only [List.mem_singleton] at ha
            subst ha
            simp

theorem inv_reschedule (avs : List Availability) (now id ns : Nat) {s : St}
    (h : Inv s) : Inv (reschedule_appointment avs now id ns s).1 := by
  unfold reschedule_appointment
  dsimp only
  split
  · exact h
  · next a hfind =>
    split
    · exact h
    · split
      · exact h
      · split
        · exact h
        · split
          · exact h
          · split
            · exact h
            · next hguard =>
              have ha := List.mem_of_find?_eq_some hfind
              refine inv_replace h ha rfl (by simpa using h.noDone a ha) ?_
              intro y hy hyne hact hyact hprof hstarts
              apply hguard
              simp only [Bool.and_eq_true]
              refine ⟨hact, ?_⟩
              unfold activeDup
              refine List.any_eq_true.mpr ⟨y, hy, ?_⟩
              simp [hyne, hyact, hprof.symm, hstarts.symm]

theorem inv_confirm (now tok : Nat) {s : St} (h : Inv s) :
    Inv (confirm_appointment now tok s).1 := by
  unfold confirm_appointment
  dsimp only
  split
  · exact h
  · next t hfindt =>
    split
    · exact h
    · split
      · exact h
      · split
        · exact h
        · split
          · exact h
          · next ap hfinda =>
            split
            · exact h
            · next hguard =>
              have ha := List.mem_of_find?_eq_some hfinda
              refine inv_replace h ha rfl (by simp) ?_
              intro y hy hyne hact hyact hprof hstarts
              apply hguard
              unfold activeDup
              refine List.any_eq_true.mpr ⟨y, hy, ?_⟩
              simp_all

theorem inv_cancel (now tok : Nat) {s : St} (h : Inv s) :
    Inv (cancel_appointment now tok s).1 := by
  unfold cancel_appointment
  dsimp only
  split
  · exact h
  · next t hfindt =>
    split
    · exact h
    · split
      · exact h
      · split
        · exact h
        · split
          · exact h
          · next ap hfinda =>
            have ha := List.mem_of_find?_eq_some hfinda
            refine inv_replace h ha rfl (by simp) ?_
            intro y hy hyne hact hyact hprof hstarts
            simp [activeStatus] at hact

theorem inv_init : Inv St.init := by
  refine ⟨?_, ?_, ?_⟩ <;> simp [St.init]

theorem inv_reachable {avs : List Availability} {s : St}
    (h : Reachable avs s) : Inv s := by
  induction h with
  | init => exact inv_init
  | create now p _ ih => exact inv_create avs now p ih
  | reschedule now id ns _ ih => exact inv_reschedule avs now id ns ih
  | confirm now tok _ ih => exact inv_confirm now tok ih
  | cancel now tok _ ih => exact inv_cancel now tok ih

/-- A list that is pairwise not-both-satisfying `p` contains at most one
element satisfying `p`. -/
theorem length_filter_le_one {α : Type} {l : List α} {p : α → Bool}
    (h : l.Pairwise (fun x y => ¬(p x = true ∧ p y = true))) :
    (l.filter p).length ≤ 1 := by
  have h2 : (l.filter p).Pairwise (fun x y => ¬(p x = true ∧ p y = true)) :=
    List.Pairwise.sublist (List.filter_sublist l) h
  match hfl : l.filter p with
  | [] => simp
  | [x] => simp
  | x :: y :: rest =>
    rw [hfl] at h2
    have hx : p x = true := (List.mem_filter.mp (hfl ▸ List.mem_cons_self x (y :: rest))).2
    have hy : p y = true :=
      (List.mem_filter.mp (hfl ▸ List.mem_cons.mpr (Or.inr (List.mem_cons_self y rest)))).2
    rcases List.pairwise_cons.mp h2 with ⟨hrel, _⟩
    exact absurd ⟨hx, hy⟩ (hrel y (List.mem_cons_self y rest))

/-- C1: starting from a state with no appointments and applying any sequence
of createAppointment, rescheduleAppointment, CONFIRM-token redemption and
CANCEL-token redemption (with the active-slot uniqueness constraint of the
storage layer modelled as part of each write), every reachable state
contains, for each professional `P` and each instant `T`, at most one
Appointment row with `professional_id = P`, `starts_at = T` and status in
{SCHEDULED, CONFIRMED}. -/
theorem C1_active_slot_uniqueness (avs : List Availability) (s : St)
    (h : Reachable avs s) (P T : Nat) :
    (s.appts.filter (fun a => activeStatus a.status && a.professional_id == P
      && a.starts_at == T)).length ≤ 1 := by
  have hinv := inv_reachable h
  refine length_filter_le_one (hinv.pair.imp ?_)
  intro x y hr hxy
  rcases hxy with ⟨hx, hy⟩
  simp only [Bool.and_eq_true, beq_iff_eq] at hx hy
  exact hr.2 hx.1.1 hy.1.1 (hx.1.2.trans hy.1.2.symm) (hx.2.trans hy.2.symm)

/-- Witness for C1 at a concrete reachable state: after one create the slot
(professional 1, Monday 09:00) holds exactly one active row. -/
theorem C1_active_slot_uniqueness_witness :
    Reachable avs0 sA ∧
    (sA.appts.filter (fun a => activeStatus a.status && a.professional_id == 1
      && a.starts_at == 540)).length ≤ 1 :=
  ⟨Reachable.create 0 reqA Reachable.init,
    C1_active_slot_uniqueness avs0 sA (Reachable.create 0 reqA Reachable.init) 1 540⟩

theorem overRel_symmetric : Symmetric OverRel := by
  intro x y h h1 h2 h3 hc
  exact h h2 h1 h3.symm ⟨hc.2, hc.1⟩

/-- A passing slot validation guarantees that no non-CANCELLED appointment
of the professional overlaps the requested interval. -/
theorem validate_ok_no_conflict {avs : List Availability} {appts : List Appt}
    {pid st m : Nat} (h : (validate_slot_fixed avs appts pid st m).1 = true) :
    ∀ b ∈ appts, b.professional_id = pid → b.status ≠ Status.CANCELLED →
      ¬(b.starts_at < st + m ∧ b.ends_at > st) := by
  unfold validate_slot_fixed at h
  dsimp only at h
  split at h
  · simp at h
  · split at h
    · simp at h
    · split at h
      · simp at h
      · next hconf =>
        intro b hb hprof hst hover
        apply hconf
        simp only [Bool.not_eq_true', Bool.not_eq_false]
        rw [Bool.eq_false_iff]
        intro hemp
        rw [List.isEmpty_iff] at hemp
        have := List.filter_eq_nil_iff.mp hemp b hb
        simp only [Bool.and_eq_true, beq_iff_eq, decide_eq_true_eq, Bool.not_eq_true',
          beq_eq_false_iff_ne, ne_eq, not_and] at this
        exact this ⟨⟨hprof, hst⟩, hover.1⟩ hover.2

theorem noOverlap_replace {s : St} (hinv : Inv s) (hno : NoOverlapActive s.appts)
    {a a' : Appt}
    (hrel : ∀ y ∈ s.appts, y.id ≠ a.id → OverRel a' y) :
    NoOverlapActive (s.appts.map (fun b => if b.id == a.id then a' else b)) :=
  pairwise_replace hno (pairwise_ids hinv.pair) hrel
    (fun y hy hyne => overRel_symmetric (hrel y hy hyne))

theorem noOverlap_create (avs : List Availability) (now : Nat) (p : CreateReq) {s : St}
    (hno : NoOverlapActive s.appts) :
    NoOverlapActive (create_appointment avs now p s).1.appts := by
  unfold create_appointment
  dsimp only
  split
  · exact hno
  · split
    · exact hno
    · split
      · exact hno
      · next hval _ =>
        rw [Bool.not_eq_false] at hval
        unfold NoOverlapActive
        rw [List.pairwise_append]
        refine ⟨hno, by simp, ?_⟩
        intro x hx y hy
        simp only [List.mem_singleton] at hy
        subst hy
        intro hxact _ hprof hov
        exact validate_ok_no_conflict hval x hx hprof
          (statusNe_CANCELLED_of_active hxact) hov

theorem noOverlap_reschedule (avs : List Availability) (now id ns : Nat) {s : St}
    (hinv : Inv s) (hno : NoOverlapActive s.appts) :
    NoOverlapActive (reschedule_appointment avs now id ns s).1.appts := by
  unfold reschedule_appointment
  dsimp only
  split
  · exact hno
  · next a hfind =>
    split
    · exact hno
    · split
      · exact hno
      · split
        · exact hno
        · split
          · exact hno
          · next hconf =>
            split
            · exact hno
            · refine noOverlap_replace hinv hno ?_
              intro y hy hyne _ hyact hprof hov
              apply hconf
              refine List.any_eq_true.mpr ⟨y, hy, ?_⟩
              have hyc : y.status ≠ Status.CANCELLED := statusNe_CANCELLED_of_active hyact
              simp only [Bool.and_eq_true, beq_iff_eq, bne_iff_ne, ne_eq,
                decide_eq_true_eq, Bool.not_eq_true', beq_eq_false_iff_ne]
              exact ⟨⟨⟨⟨hprof.symm, hyc⟩, hyne⟩, hov.2⟩, hov.1⟩

theorem noOverlap_cancel (now tok : Nat) {s : St}
    (hinv : Inv s) (hno : NoOverlapActive s.appts) :
    NoOverlapActive (cancel_appointment now tok s).1.appts := by
  unfold cancel_appointment
  dsimp only
  split
  · exact hno
  · next t hfindt =>
    split
    · exact hno
    · split
      · exact hno
      · split
        · exact hno
        · split
          · exact hno
          · next ap hfinda =>
            refine noOverlap_replace hinv hno ?_
            intro y hy hyne hact
            simp [activeStatus] at hact

theorem noOverlap_confirm (now tok : Nat) {s : St}
    (hinv : Inv s) (hno : NoOverlapActive s.appts)
    (hsafe : ∀ t, s.tokens.find? (fun u => u.token == tok) = some t →
      ∀ a, s.appts.find? (fun b => b.id == t.appointment_id) = some a →
        a.status ≠ Status.CANCELLED) :
    NoOverlapActive (confirm_appointment now tok s).1.appts := by
  unfold confirm_appointment
  dsimp only
  split
  · exact hno
  · next t hfindt =>
    split
    · exact hno
    · split
      · exact hno
      · split
        · exact hno
        · split
          · exact hno
          · next ap hfinda =>
            split
            · exact hno
            · have ha := List.mem_of_find?_eq_some hfinda
              have hapact : activeStatus ap.status = true :=
                active_of_ne (hsafe t hfindt ap hfinda) (hinv.noDone ap ha)
              refine noOverlap_replace hinv hno ?_
              intro y hy hyne _ hyact hprof hov
              have hne : ap ≠ y := fun he => hyne (congrArg Appt.id he).symm
              exact (hno.forall overRel_symmetric) ha hy hne hapact hyact hprof hov

theorem reachable_of_safe {avs : List Availability} {s : St}
    (h : ReachableSafe avs s) : Reachable avs s := by
  induction h with
  | init => exact Reachable.init
  | create now p _ ih => exact Reachable.create now p ih
  | reschedule now id ns _ ih => exact Reachable.reschedule now id ns ih
  | confirm now tok _ _ ih => exact Reachable.confirm now tok ih
  | cancel now tok _ ih => exact Reachable.cancel now tok ih

/-- Safe reachability proof for the fixture `sE` (a CONFIRM redemption
against an appointment that is SCHEDULED, not CANCELLED). -/
theorem sE_safe : ReachableSafe avs0 sE := by
  refine ReachableSafe.confirm 30 1 (ReachableSafe.create 0 reqA ReachableSafe.init) ?_
  intro t ht a ha
  rw [show sA.tokens.find? (fun u => u.token == 1) =
    some ⟨1, 1, .CONFIRM, "resp", 2880, none, 0⟩ from rfl] at ht
  injection ht with ht
  subst ht
  rw [show sA.appts.find? (fun b => b.id == (1 : Nat)) =
    some ⟨1, 7, 1, "fono", none, .SCHEDULED, 540, 600, 0, 0⟩ from rfl] at ha
  injection ha with ha
  subst ha
  decide

/-- C4 counterexample: claim C4 is false as stated.  The concrete sequence
create appointment 1 (Mon 09:00–10:00) → redeem its CANCEL token → create
appointment 2 (Mon 09:30–10:30) → redeem appointment 1's CONFIRM token
reaches the state `sD`, in which appointment 1 (CONFIRMED, 09:00–10:00) and
appointment 2 (SCHEDULED, 09:30–10:30) of the same professional overlap:
CONFIRM redemption resurrects a cancelled appointment regardless of its
prior status, and the partial unique index only rejects equal `starts_at`,
not overlap. -/
theorem C4_counterexample :
    Reachable avs0 sD ∧ ¬ NoOverlapActive sD.appts := by
  refine ⟨?_, by decide⟩
  exact Reachable.confirm 30 1 (Reachable.create 20 reqB
    (Reachable.cancel 10 2 (Reachable.create 0 reqA Reachable.init)))

/-- C4 (amended): in every state reachable by createAppointment,
rescheduleAppointment, CANCEL-token redemption and CONFIRM-token redemption
restricted to appointments that are not CANCELLED at redemption time, no two
distinct active appointments of the same professional have overlapping
half-open `[starts_at, ends_at)` intervals. -/
theorem C4_no_overlap_amended (avs : List Availability) (s : St)
    (h : ReachableSafe avs s) : NoOverlapActive s.appts := by
  induction h with
  | init => simp [St.init, NoOverlapActive]
  | create now p _ ih => exact noOverlap_create avs now p ih
  | reschedule now id ns hs ih =>
    exact noOverlap_reschedule avs now id ns (inv_reachable (reachable_of_safe hs)) ih
  | confirm now tok hs hsafe ih =>
    exact noOverlap_confirm now tok (inv_reachable (reachable_of_safe hs)) ih hsafe
  | cancel now tok hs ih =>
    exact noOverlap_cancel now tok (inv_reachable (reachable_of_safe hs)) ih

/-- Witness for the amended C4 at a concrete safely-reachable state: a
create followed by a legitimate CONFIRM redemption. -/
theorem C4_no_overlap_amended_witness :
    ReachableSafe avs0 sE ∧ NoOverlapActive sE.appts :=
  ⟨sE_safe, C4_no_overlap_amended avs0 sE sE_safe⟩

/-- C3: the claimed ok/"outside business hours"/"slot already taken"
trichotomy of `validate_slot` does not hold — the function reads the
attributes `start_utc`/`end_utc` (and `starts_at_utc`/`ends_at_utc`), which
the models do not declare, so it raises `AttributeError` as soon as the
professional has an availability row on the requested UTC weekday (left
conjunct: the failing input — professional 1 with a Monday window, asked
about Monday 09:00).  On every input it either raises or answers the no-
window early exit (right conjunct); it can never return `ok = True` nor the
"slot already taken" reason. -/
theorem C3_validate_slot_crashes :
    validate_slot avs0 [] 1 540 60 =
      .error "AttributeError: Availability object has no attribute start_utc" ∧
    ∀ (avs : List Availability) (appts : List Appt) (pid st m : Nat),
      validate_slot avs appts pid st m =
        .error "AttributeError: Availability object has no attribute start_utc" ∨
      validate_slot avs appts pid st m =
        .ok (false, some "Fora do horário de atendimento.") := by
  refine ⟨rfl, ?_⟩
  intro avs appts pid st m
  unfold validate_slot
  dsimp only
  split
  · exact Or.inl rfl
  · exact Or.inr rfl

/-- C5 counterexample: the claim fails in two independent ways.  First, with
only CANCELLED history and a containing window, the literal `validate_slot`
raises `AttributeError` instead of returning `ok = True` (first conjunct).
Second, even with the attribute reads corrected, DONE history does block the
slot: `validate_slot` only excludes `status == CANCELLED` from the conflict
query, so a DONE appointment overlapping the requested interval yields
"Horário já ocupado" and `create_appointment` returns the 409 conflict, not
success (remaining conjuncts, at professional 1, Monday 09:00, with a DONE
appointment 09:00–10:00). -/
theorem C5_counterexample :
    validate_slot avs0 cancHist 1 540 60 =
      .error "AttributeError: Availability object has no attribute start_utc" ∧
    validate_slot_fixed avs0 doneHist 1 540 60 = (false, some "Horário já ocupado.") ∧
    (create_appointment avs0 0 reqA doneSt).2 = .conflict "Horário já ocupado." ∧
    (create_appointment avs0 0 reqA doneSt).1 = doneSt := by
  exact ⟨rfl, by decide, by decide, by decide⟩

/-- C5 (amended): with the attribute reads corrected to the declared columns
and DONE removed from the claim (only CANCELLED history is ignored), the
property holds: if every appointment of the professional overlapping
`[starts_at, starts_at + slot_minutes)` is CANCELLED, and the slot's
time-of-day interval is contained in an availability window of that UTC
weekday, then validation returns `ok = True` and `create_appointment`
persists a new SCHEDULED row. -/
theorem C5_cancelled_history_amended (avs : List Availability) (s : St)
    (now : Nat) (p : CreateReq)
    (hm5 : 5 ≤ p.slot_minutes) (hm240 : p.slot_minutes ≤ 240)
    (hdur : ∀ b ∈ s.appts, b.starts_at < b.ends_at)
    (hcanc : ∀ b ∈ s.appts, b.professional_id = p.professional_id →
      b.starts_at < p.starts_at + p.slot_minutes → b.ends_at > p.starts_at →
      b.status = Status.CANCELLED)
    (hfits : (dayWindows avs p.professional_id (weekdayOf p.starts_at)).any
      (fun w => decide (w.1 ≤ timeOf p.starts_at)
        && decide (timeOf (p.starts_at + p.slot_minutes) ≤ w.2)) = true) :
    validate_slot_fixed avs s.appts p.professional_id p.starts_at p.slot_minutes
      = (true, none) ∧
    (create_appointment avs now p s).2 = .created s.nextApptId ∧
    (create_appointment avs now p s).1.appts = s.appts ++
      [⟨s.nextApptId, p.student_id, p.professional_id, p.service, p.location,
        .SCHEDULED, p.starts_at, p.starts_at + p.slot_minutes, now, now⟩] := by
  have hconf : (s.appts.filter (fun b =>
      b.professional_id == p.professional_id && !(b.status == Status.CANCELLED)
        && decide (b.starts_at < p.starts_at + p.slot_minutes)
        && decide (b.ends_at > p.starts_at))) = [] := by
    rw [List.filter_eq_nil_iff]
    intro b hb
    simp only [Bool.and_eq_true, beq_iff_eq, decide_eq_true_eq, Bool.not_eq_true',
      beq_eq_false_iff_ne, ne_eq, not_and]
    intro hx hov2
    exact absurd (hcanc b hb hx.1.1 hx.2 hov2) hx.1.2
  have hval : validate_slot_fixed avs s.appts p.professional_id p.starts_at
      p.slot_minutes = (true, none) := by
    unfold validate_slot_fixed
    dsimp only
    rw [if_neg, if_neg, hconf]
    · rfl
    · simp [hfits]
    · intro hemp
      rw [List.isEmpty_iff] at hemp
      rw [hemp] at hfits
      simp at hfits
  refine ⟨hval, ?_, ?_⟩
  · unfold create_appointment
    dsimp only
    rw [if_neg (by simp; omega), hval]
    rw [if_neg (by simp), if_neg]
    intro hany
    rcases List.any_eq_true.mp hany with ⟨b, hb, hpred⟩
    simp only [Bool.and_eq_true, beq_iff_eq] at hpred
    have := hcanc b hb hpred.1.2 (by omega) (by have := hdur b hb; omega)
    rw [this] at hpred
    simp [activeStatus] at hpred
  · unfold create_appointment
    dsimp only
    rw [if_neg (by simp; omega), hval]
    rw [if_neg (by simp), if_neg]
    intro hany
    rcases List.any_eq_true.mp hany with ⟨b, hb, hpred⟩
    simp only [Bool.and_eq_true, beq_iff_eq] at hpred
    have := hcanc b hb hpred.1.2 (by omega) (by have := hdur b hb; omega)
    rw [this] at hpred
    simp [activeStatus] at hpred

/-- Witness for the amended C5: over a table whose only row is a CANCELLED
09:00–10:00 appointment, re-creating the 09:00 slot validates and
persists. -/
theorem C5_cancelled_history_amended_witness :
    validate_slot_fixed avs0 cancSt.appts 1 540 60 = (true, none) ∧
    (create_appointment avs0 0 reqA cancSt).2 = .created 2 ∧
    (create_appointment avs0 0 reqA cancSt).1.appts = cancSt.appts ++
      [⟨2, 7, 1, "fono", none, .SCHEDULED, 540, 600, 0, 0⟩] :=
  C5_cancelled_history_amended avs0 cancSt 0 reqA (by decide) (by decide)
    (by decide) (by decide) (by decide)

/-- C7: the 6-hour lead-time rule of `reschedule_appointment` — for any
existing appointment, a requested new start strictly below `now + 6h` is
rejected with the lead-time error and the state is unchanged, with no
hypothesis about the destination slot's availability or conflicts (the check
precedes both); a new start at or above `now + 6h` never produces the
lead-time rejection. -/
theorem C7_reschedule_lead_time (avs : List Availability) (now id ns : Nat)
    (s : St) (a : Appt)
    (hfind : s.appts.find? (fun b => b.id == id) = some a) :
    (ns < now + 360 → reschedule_appointment avs now id ns s = (s, .leadTime)) ∧
    (now + 360 ≤ ns → (reschedule_appointment avs now id ns s).2 ≠ .leadTime) := by
  constructor
  · intro h
    unfold reschedule_appointment
    rw [hfind]
    dsimp only
    rw [if_pos (by omega : ns < now + 6 * 60)]
  · intro h
    unfold reschedule_appointment
    rw [hfind]
    dsimp only
    rw [if_neg (by omega : ¬ ns < now + 6 * 60)]
    split
    · simp
    · split
      · simp
      · split
        · simp
        · split
          · simp
          · simp

/-- Witness for C7: rescheduling the fixture appointment to instant 100
while the clock reads 1000 is a lead-time rejection leaving `sA` intact. -/
theorem C7_reschedule_lead_time_witness :
    (100 < 1000 + 360 → reschedule_appointment avs0 1000 1 100 sA = (sA, .leadTime)) ∧
    (1000 + 360 ≤ 100 → (reschedule_appointment avs0 1000 1 100 sA).2 ≠ .leadTime) :=
  C7_reschedule_lead_time avs0 1000 1 100 sA apA rfl

/-- C8 (frame condition of reschedule): a successful
`reschedule_appointment` — with no hypothesis on the row's status — replaces
exactly the targeted row by `rescheduled_row` (same id, student,
professional, service, location, status and created_at; new `starts_at`,
`ends_at` preserving the duration; `updated_at` refreshed), leaves every
other appointment row in place, and does not touch the token table or the id
sequences. -/
theorem C8_reschedule_frame (avs : List Availability) (now id ns : Nat)
    (s s' : St) (a : Appt)
    (hfind : s.appts.find? (fun b => b.id == id) = some a)
    (hok : reschedule_appointment avs now id ns s = (s', .rescheduled)) :
    s'.appts = s.appts.map (fun b => if b.id == a.id then rescheduled_row a ns now else b) ∧
    s'.tokens = s.tokens ∧ s'.nextApptId = s.nextApptId ∧
    s'.nextTokenId = s.nextTokenId ∧
    (∀ b ∈ s.appts, b.id ≠ a.id → b ∈ s'.appts) ∧
    ∃ a' ∈ s'.appts, a'.id = a.id ∧ a'.student_id = a.student_id ∧
      a'.professional_id = a.professional_id ∧ a'.service = a.service ∧
      a'.location = a.location ∧ a'.status = a.status ∧ a'.created_at = a.created_at ∧
      a'.starts_at = ns ∧ a'.ends_at - a'.starts_at = a.ends_at - a.starts_at := by
  have ha : a ∈ s.appts := List.mem_of_find?_eq_some hfind
  unfold reschedule_appointment at hok
  rw [hfind] at hok
  dsimp only at hok
  split at hok
  · simp at hok
  · split at hok
    · simp at hok
    · split at hok
      · simp at hok
      · split at hok
        · simp at hok
        · split at hok
          · simp at hok
          · have hs' : _ = s' := congrArg Prod.fst hok
            subst hs'
            refine ⟨rfl, rfl, rfl, rfl, ?_, ?_⟩
            · intro b hb hbne
              dsimp only
              exact List.mem_map.mpr ⟨b, hb, by simp [hbne]⟩
            · refine ⟨_, List.mem_map.mpr ⟨a, ha, rfl⟩, ?_⟩
              simp [rescheduled_row]

/-- Witness for C8: rescheduling the fixture appointment of `sA` to the next
Monday 09:00 succeeds, and the frame condition holds at that state. -/
theorem C8_reschedule_frame_witness :
    sR.appts = sA.appts.map (fun b => if b.id == apA.id then rescheduled_row apA 10620 0 else b) ∧
    sR.tokens = sA.tokens ∧ sR.nextApptId = sA.nextApptId ∧
    sR.nextTokenId = sA.nextTokenId ∧
    (∀ b ∈ sA.appts, b.id ≠ apA.id → b ∈ sR.appts) ∧
    ∃ a' ∈ sR.appts, a'.id = apA.id ∧ a'.student_id = apA.student_id ∧
      a'.professional_id = apA.professional_id ∧ a'.service = apA.service ∧
      a'.location = apA.location ∧ a'.status = apA.status ∧ a'.created_at = apA.created_at ∧
      a'.starts_at = 10620 ∧ a'.ends_at - a'.starts_at = apA.ends_at - apA.starts_at :=
  C8_reschedule_frame avs0 0 1 10620 sA sR apA rfl rfl

/-- C9 counterexample: storing the window 22:00–23:00 local (weekday 0,
Monday) at offset UTC−3 produces a row whose times are the UTC 01:00–02:00
of the NEXT day, but whose stored weekday is still 0 — whereas the UTC
weekday of the converted instant is 1.  The claim that the stored weekday is
the shifted UTC weekday is therefore false: `create_availability` stores
`weekday=payload.weekday`, the original local weekday. -/
theorem C9_counterexample :
    create_availability_row 1 0 1320 1380 (-180) = .ok ⟨1, 0, 60, 120⟩ ∧
    utcWeekdayOfLocal 0 1320 (-180) = 1 :=
  ⟨rfl, by decide⟩

/-- C9 (amended): the availability row stored by the creation workflow
carries the ORIGINAL local weekday of the payload together with the UTC
times of day from the reference-Monday conversion; whenever the converted
end does not exceed the converted start the request is rejected instead, so
the weekday is never re-keyed to the UTC weekday. -/
theorem C9_stores_local_weekday_amended (pid wd s e : Nat) (o : Int)
    (h : time_local_to_utc_time_for_weekday s wd o <
      time_local_to_utc_time_for_weekday e wd o) :
    create_availability_row pid wd s e o =
      .ok ⟨pid, wd, time_local_to_utc_time_for_weekday s wd o,
           time_local_to_utc_time_for_weekday e wd o⟩ := by
  unfold create_availability_row
  dsimp only
  rw [if_neg (Nat.not_le.mpr h)]

/-- Witness for the amended C9 at the midnight-crossing input 22:00–23:00
local, UTC−3: the stored row is `(weekday 0, 01:00, 02:00)`. -/
theorem C9_stores_local_weekday_amended_witness :
    time_local_to_utc_time_for_weekday 1320 0 (-180) <
      time_local_to_utc_time_for_weekday 1380 0 (-180) ∧
    create_availability_row 1 0 1320 1380 (-180) =
      .ok ⟨1, 0, time_local_to_utc_time_for_weekday 1320 0 (-180),
           time_local_to_utc_time_for_weekday 1380 0 (-180)⟩ :=
  ⟨by decide, C9_stores_local_weekday_amended 1 0 1320 1380 (-180) (by decide)⟩

/-- C10 counterexample: the round trip is not the identity for every date,
time and timezone.  In the spring-forward zone `tzGap` (transition at
instant 10080 from UTC−5 to UTC−4), the local wall time (day 6, 19:30 =
minute 1170) lies in the non-existent gap; `combine_local_to_utc` resolves
it with the pre-transition offset (PEP 495 `fold=0`) and
`split_utc_to_local` returns (day 6, minute 1230) — one hour later than the
input. -/
theorem C10_counterexample :
    split_utc_to_local (combine_local_to_utc 6 1170 tzGap) tzGap = (6, 1230) ∧
    (1230 : Int) ≠ (1170 : Int) :=
  ⟨by decide, by decide⟩

/-- C10 (amended): the round trip `split_utc_to_local ∘ combine_local_to_utc`
is the identity on every (date, time, timezone) whose local wall time
actually occurs in that zone — precisely, whenever the offset in force at
the resulting UTC instant equals the offset attributed to the wall time.
This covers all inputs for zones with a constant offset and all fall-back
ambiguous times; it excludes exactly the spring-forward gap. -/
theorem C10_roundtrip_amended (d : Int) (t : Nat) (tz : TzModel) (ht : t < 1440)
    (hgap : offsetAtUtc tz (combine_local_to_utc d t tz) =
      offsetAtWall tz (d * 1440 + t)) :
    split_utc_to_local (combine_local_to_utc d t tz) tz = (d, (t : Int)) := by
  unfold split_utc_to_local
  dsimp only
  rw [hgap]
  unfold combine_local_to_utc
  simp only [Prod.mk.injEq]
  omega

/-- Witness for the amended C10 at a pre-gap wall time of the DST zone. -/
theorem C10_roundtrip_amended_witness :
    (1100 : Nat) < 1440 ∧
    offsetAtUtc tzGap (combine_local_to_utc 6 1100 tzGap) =
      offsetAtWall tzGap (6 * 1440 + 1100) ∧
    split_utc_to_local (combine_local_to_utc 6 1100 tzGap) tzGap = (6, (1100 : Int)) :=
  ⟨by decide, by decide, C10_roundtrip_amended 6 1100 tzGap (by decide) (by decide)⟩

/-- C6 counterexample: the live CONFIRM token 1 of the `c6St` fixture passes
all three of the claim's failure checks (found with the right kind, not
consumed, not expired), yet its redemption does not succeed: the target
appointment is CANCELLED while another active appointment holds the same
`(professional_id, starts_at)`, so writing CONFIRMED violates the partial
unique index and the commit raises (HTTP 500) — an outcome the claim's
"otherwise it succeeds" does not admit.  Token and appointment are left
unchanged. -/
theorem C6_counterexample :
    c6St.tokens.find? (fun u => u.token == 1) = some tokW ∧
    tokW.kind = .CONFIRM ∧ tokW.consumed_at = none ∧ 10 < tokW.expires_at ∧
    confirm_appointment 10 1 c6St = (c6St, .storageError) :=
  ⟨rfl, rfl, rfl, by decide, by decide⟩

/-- C6 (amended): behaviour of token redemption for both kinds, over any
state whose token table satisfies the foreign-key integrity the schema
enforces (`appointment_tokens.appointment_id REFERENCES appointments.id`):
it fails with "not found"/"wrong kind" iff the token row does not exist or
its kind differs; otherwise fails with "already used" iff `consumed_at` is
set; otherwise fails with "expired" iff `now ≥ expires_at`; otherwise the
appointment row exists and — unless the redemption is a CONFIRM whose
commit would violate the active-slot unique index, which fails with a
storage error instead — the redemption succeeds, setting `consumed_at = now`
and overwriting the appointment's status with CONFIRMED/CANCELLED regardless
of its prior value.  Every failing outcome returns the state unchanged. -/
theorem C6_token_redemption_amended (k : TokenKind) (now tok : Nat) (s : St)
    (hfk : ∀ t ∈ s.tokens, ∃ a ∈ s.appts, a.id = t.appointment_id) :
    (s.tokens.find? (fun u => u.token == tok) = none →
      redeemOp k now tok s = (s, .tokenInvalid)) ∧
    ∀ t, s.tokens.find? (fun u => u.token == tok) = some t →
      (t.kind ≠ k → redeemOp k now tok s = (s, .tokenInvalid)) ∧
      (t.kind = k → t.consumed_at ≠ none → redeemOp k now tok s = (s, .alreadyUsed)) ∧
      (t.kind = k → t.consumed_at = none → t.expires_at ≤ now →
        redeemOp k now tok s = (s, .expired)) ∧
      (t.kind = k → t.consumed_at = none → now < t.expires_at →
        (∃ ap, s.appts.find? (fun b => b.id == t.appointment_id) = some ap) ∧
        ∀ ap, s.appts.find? (fun b => b.id == t.appointment_id) = some ap →
          (redeemBlocked k s ap = true → redeemOp k now tok s = (s, .storageError)) ∧
          (redeemBlocked k s ap = false →
            redeemOp k now tok s = (redeemedState k now s t ap, .redeemed))) := by
  have hex : ∀ t, s.tokens.find? (fun u => u.token == tok) = some t →
      ∃ ap, s.appts.find? (fun b => b.id == t.appointment_id) = some ap := by
    intro t hfind
    rcases hfk t (List.mem_of_find?_eq_some hfind) with ⟨a, ha, hid⟩
    have : (s.appts.find? (fun b => b.id == t.appointment_id)).isSome := by
      rw [List.find?_isSome]
      exact ⟨a, ha, by simp [hid]⟩
    exact Option.isSome_iff_exists.mp this
  cases k
  case CONFIRM =>
    constructor
    · intro hnone
      unfold redeemOp confirm_appointment
      dsimp only
      rw [hnone]
    · intro t hfind
      unfold redeemOp confirm_appointment
      dsimp only
      rw [hfind]
      dsimp only
      refine ⟨?_, ?_, ?_, ?_⟩
      · intro hk
        rw [if_pos (by simp [hk])]
      · intro hk hc
        rw [if_neg (by simp [hk]), if_pos (by simp [hc])]
      · intro hk hc hexp
        rw [if_neg (by simp [hk]), if_neg (by simp [hc]), if_pos hexp]
      · intro hk hc hexp
        refine ⟨hex t hfind, ?_⟩
        intro ap hap
        rw [if_neg (by simp [hk]), if_neg (by simp [hc]), if_neg (by omega), hap]
        dsimp only
        constructor
        · intro hb
          rw [if_pos (by simpa [redeemBlocked] using hb)]
        · intro hb
          rw [if_neg (by simpa [redeemBlocked] using hb)]
          rfl
  case CANCEL =>
    constructor
    · intro hnone
      unfold redeemOp cancel_appointment
      dsimp only
      rw [hnone]
    · intro t hfind
      unfold redeemOp cancel_appointment
      dsimp only
      rw [hfind]
      dsimp only
      refine ⟨?_, ?_, ?_, ?_⟩
      · intro hk
        rw [if_pos (by simp [hk])]
      · intro hk hc
        rw [if_neg (by simp [hk]), if_pos (by simp [hc])]
      · intro hk hc hexp
        rw [if_neg (by simp [hk]), if_neg (by simp [hc]), if_pos hexp]
      · intro hk hc hexp
        refine ⟨hex t hfind, ?_⟩
        intro ap hap
        rw [if_neg (by simp [hk]), if_neg (by simp [hc]), if_neg (by omega), hap]
        dsimp only
        constructor
        · intro hb
          simp [redeemBlocked] at hb
        · intro hb
          rfl

/-- Witness for the amended C6: the live CONFIRM token of the `c6W` fixture
(whose appointment is SCHEDULED with no same-slot competitor) redeems
successfully, consuming the token and confirming the appointment. -/
theorem C6_token_redemption_amended_witness :
    (∀ t ∈ c6W.tokens, ∃ a ∈ c6W.appts, a.id = t.appointment_id) ∧
    redeemOp .CONFIRM 10 1 c6W = (redeemedState .CONFIRM 10 c6W tokW apA, .redeemed) := by
  refine ⟨by decide, ?_⟩
  have h := (C6_token_redemption_amended .CONFIRM 10 1 c6W (by decide)).2 tokW rfl
  have h2 := (h.2.2.2 rfl rfl (by decide)).2 apA rfl
  exact h2.2 (by decide)

/-- A passing validation pins down the availability half of the check: the
weekday's window list is non-empty and some window contains the slot. -/
theorem validate_parts {p : RaceParams}
    (hboot : validate_slot_fixed p.avs p.d0 p.professional_id p.starts_at
      p.slot_minutes = (true, none)) :
    (dayWindows p.avs p.professional_id (weekdayOf p.starts_at)).isEmpty = false ∧
    ((dayWindows p.avs p.professional_id (weekdayOf p.starts_at)).any (fun w =>
      decide (w.1 ≤ timeOf p.starts_at)
        && decide (timeOf (p.starts_at + p.slot_minutes) ≤ w.2))) = true := by
  unfold validate_slot_fixed at hboot
  dsimp only at hboot
  split at hboot
  · simp at hboot
  · next hne =>
    split at hboot
    · simp at hboot
    · next hfits =>
      constructor
      · simpa using hne
      · simpa using hfits

/-- Once the winning row is in the table, any later validation of the same
slot fails (the new active row overlaps its own interval). -/
theorem validate_after_insert {p : RaceParams} (hm : 1 ≤ p.slot_minutes)
    (hboot : validate_slot_fixed p.avs p.d0 p.professional_id p.starts_at
      p.slot_minutes = (true, none)) :
    (validate_slot_fixed p.avs (p.d0 ++ [raceRow p]) p.professional_id
      p.starts_at p.slot_minutes).1 = false := by
  rcases validate_parts hboot with ⟨hne, hfits⟩
  unfold validate_slot_fixed
  dsimp only
  rw [if_neg (by simp [hne]), if_neg (by simp [hfits]), if_pos]
  have hmem : raceRow p ∈ (p.d0 ++ [raceRow p]).filter (fun b =>
      b.professional_id == p.professional_id && !(b.status == Status.CANCELLED)
        && decide (b.starts_at < p.starts_at + p.slot_minutes)
        && decide (b.ends_at > p.starts_at)) := by
    rw [List.mem_filter]
    refine ⟨by simp, ?_⟩
    simp only [raceRow, Bool.and_eq_true, beq_iff_eq, decide_eq_true_eq]
    refine ⟨⟨⟨?_, ?_⟩, ?_⟩, ?_⟩ <;> first | trivial | (dsimp only; omega)
  simp only [Bool.not_eq_true']
  rw [Bool.eq_false_iff]
  intro hemp
  rw [List.isEmpty_iff] at hemp
  rw [hemp] at hmem
  simp at hmem

/-- With no active row at the slot in `d0`, the partial unique index accepts
the first insert. -/
theorem guard_d0 {p : RaceParams}
    (hfree : ∀ b ∈ p.d0, ¬(activeStatus b.status = true ∧
      b.professional_id = p.professional_id ∧ b.starts_at = p.starts_at)) :
    (p.d0.any (fun b => activeStatus b.status
      && b.professional_id == p.professional_id
      && b.starts_at == p.starts_at)) = false := by
  rw [Bool.eq_false_iff]
  intro hany
  rcases List.any_eq_true.mp hany with ⟨b, hb, hpred⟩
  simp only [Bool.and_eq_true, beq_iff_eq] at hpred
  exact hfree b hb ⟨hpred.1.1, hpred.1.2, hpred.2⟩

/-- After the winning insert, the partial unique index rejects every further
insert of the same slot. -/
theorem guard_after_insert (p : RaceParams) :
    ((p.d0 ++ [raceRow p]).any (fun b => activeStatus b.status
      && b.professional_id == p.professional_id
      && b.starts_at == p.starts_at)) = true := by
  refine List.any_eq_true.mpr ⟨raceRow p, by simp, ?_⟩
  simp [raceRow, activeStatus]

/-- One race step preserves `RaceInv`. -/
theorem raceStep_inv {p : RaceParams} {N : Nat} {s s' : RaceSt} {e : REv}
    (hboot : validate_slot_fixed p.avs p.d0 p.professional_id p.starts_at
      p.slot_minutes = (true, none))
    (hfree : ∀ b ∈ p.d0, ¬(activeStatus b.status = true ∧
      b.professional_id = p.professional_id ∧ b.starts_at = p.starts_at))
    (hm : 1 ≤ p.slot_minutes)
    (hcall : e.call < N)
    (hinv : RaceInv p N s)
    (hstep : raceStep p s e = some s') : RaceInv p N s' := by
  obtain ⟨htail, hphase⟩ := hinv
  cases e with
  | validate i =>
    simp only [REv.call] at hcall
    unfold raceStep at hstep
    dsimp only at hstep
    rcases hvq : s.vres i with _ | b
    · rw [hvq] at hstep
      dsimp only at hstep
      rcases hphase with ⟨hdb, hres⟩ | ⟨hdb, w, hwN, hvw, hw, huni⟩
      · rw [hdb, hboot] at hstep
        dsimp only at hstep
        rw [if_pos rfl] at hstep
        injection hstep with hstep
        subst hstep
        refine ⟨?_, Or.inl ⟨rfl, ?_⟩⟩
        · intro j hj
          have := htail j hj
          constructor
          · dsimp only
            rw [if_neg (by omega)]
            exact this.1
          · exact this.2
        · intro j
          exact hres j
      · rw [hdb] at hstep
        rw [show (validate_slot_fixed p.avs (p.d0 ++ [raceRow p]) p.professional_id
          p.starts_at p.slot_minutes).1 = false from validate_after_insert hm hboot] at hstep
        rw [if_neg (by simp)] at hstep
        injection hstep with hstep
        subst hstep
        have hiw : i ≠ w := by
          intro he
          rw [he, hvw] at hvq
          cases hvq
        refine ⟨?_, Or.inr ⟨rfl, w, hwN, ?_, ?_, ?_⟩⟩
        · intro j hj
          have := htail j hj
          constructor
          · dsimp only
            rw [if_neg (by omega)]
            exact this.1
          · dsimp only
            rw [if_neg (by omega)]
            exact this.2
        · dsimp only
          rw [if_neg (fun he => hiw he.symm)]
          exact hvw
        · dsimp only
          rw [if_neg (fun he => hiw he.symm)]
          exact hw
        · intro j hj
          dsimp only
          by_cases hji : j = i
          · rw [if_pos hji]
            simp
          · rw [if_neg hji]
            exact huni j hj
    · rw [hvq] at hstep
      dsimp only at hstep
      cases hstep
  | write i =>
    simp only [REv.call] at hcall
    unfold raceStep at hstep
    dsimp only at hstep
    rcases hvq : s.vres i with _ | b
    · rw [hvq] at hstep
      dsimp only at hstep
      cases hstep
    · rcases hrq : s.res i with _ | c
      · rw [hvq, hrq] at hstep
        cases b
        · dsimp only at hstep
          cases hstep
        · dsimp only at hstep
          rcases hphase with ⟨hdb, hres⟩ | ⟨hdb, w, hwN, hvw, hw, huni⟩
          · rw [hdb, guard_d0 hfree] at hstep
            rw [if_neg (by simp)] at hstep
            injection hstep with hstep
            subst hstep
            refine ⟨?_, Or.inr ⟨rfl, i, hcall, hvq, ?_, ?_⟩⟩
            · intro j hj
              have := htail j hj
              refine ⟨this.1, ?_⟩
              dsimp only
              rw [if_neg (by omega)]
              exact this.2
            · dsimp only
              rw [if_pos rfl]
            · intro j hj
              dsimp only
              rw [if_neg hj]
              rw [hres j]
              simp
          · rw [hdb, guard_after_insert p] at hstep
            rw [if_pos rfl] at hstep
            injection hstep with hstep
            subst hstep
            have hiw : i ≠ w := by
              intro he
              rw [he, hw] at hrq
              cases hrq
            refine ⟨?_, Or.inr ⟨rfl, w, hwN, hvw, ?_, ?_⟩⟩
            · intro j hj
              have := htail j hj
              refine ⟨this.1, ?_⟩
              dsimp only
              rw [if_neg (by omega)]
              exact this.2
            · dsimp only
              rw [if_neg (fun he => hiw he.symm)]
              exact hw
            · intro j hj
              dsimp only
              by_cases hji : j = i
              · rw [if_pos hji]
                simp
              · rw [if_neg hji]
                exact huni j hj
      · rw [hvq, hrq] at hstep
        cases b <;> dsimp only at hstep <;> cases hstep

/-- A whole race run preserves `RaceInv`. -/
theorem runRace_inv {p : RaceParams} {N : Nat} {evs : List REv} {s sf : RaceSt}
    (hboot : validate_slot_fixed p.avs p.d0 p.professional_id p.starts_at
      p.slot_minutes = (true, none))
    (hfree : ∀ b ∈ p.d0, ¬(activeStatus b.status = true ∧
      b.professional_id = p.professional_id ∧ b.starts_at = p.starts_at))
    (hm : 1 ≤ p.slot_minutes)
    (hev : ∀ e ∈ evs, e.call < N)
    (hinv : RaceInv p N s)
    (hrun : runRace p s evs = some sf) : RaceInv p N sf := by
  induction evs generalizing s with
  | nil =>
    unfold runRace at hrun
    injection hrun with hrun
    exact hrun ▸ hinv
  | cons e es ih =>
    unfold runRace at hrun
    rcases hq : raceStep p s e with _ | s1
    · rw [hq] at hrun
      cases hrun
    · rw [hq] at hrun
      dsimp only at hrun
      exact ih (fun x hx => hev x (List.mem_cons_of_mem e hx))
        (raceStep_inv hboot hfree hm (hev e (List.mem_cons_self e es)) hinv hq) hrun

/-- C2 counterexample: claim C2 fails on the literal source — even for a
perfectly bookable slot (first conjunct: the attribute-corrected validation
passes on the empty table), every `POST /appointments` call raises
`AttributeError` inside `validate_slot` before reaching the write, so in
every interleaving of N ≥ 1 concurrent calls all of them return a generic
500 system error: no call returns a created appointment and no call returns
the 409 conflict. -/
theorem C2_counterexample :
    validate_slot_fixed avs0 [] 1 540 60 = (true, none) ∧
    create_appointment_literal avs0 [] 1 540 60 =
      .sysError "AttributeError: Availability object has no attribute start_utc" :=
  ⟨by decide, rfl⟩

/-- C2 (amended): with `validate_slot` reading the declared columns, among N
≥ 1 concurrent createAppointment calls for the same bookable
`(professional_id, starts_at)` slot — each call validating at an arbitrary
point and writing atomically under the partial unique index, in an arbitrary
interleaving — once every call has been answered, exactly one call holds the
201-created response, every other call holds the 409 conflict (from its
pre-flight validation or from the unique-index violation at write time,
never a generic system error), and the table has gained exactly the winner's
SCHEDULED row. -/
theorem C2_exactly_one_wins_amended (p : RaceParams) (N : Nat) (evs : List REv)
    (sf : RaceSt)
    (hN : 1 ≤ N)
    (hboot : validate_slot_fixed p.avs p.d0 p.professional_id p.starts_at
      p.slot_minutes = (true, none))
    (hfree : ∀ b ∈ p.d0, ¬(activeStatus b.status = true ∧
      b.professional_id = p.professional_id ∧ b.starts_at = p.starts_at))
    (hm : 1 ≤ p.slot_minutes)
    (hev : ∀ e ∈ evs, e.call < N)
    (hrun : runRace p (raceInit p) evs = some sf)
    (hdone : ∀ i, i < N → (sf.res i).isSome = true) :
    ∃ i, i < N ∧ sf.res i = some true ∧
      (∀ j, j < N → j ≠ i → sf.res j = some false) ∧
      sf.db = p.d0 ++ [raceRow p] ∧ (raceRow p).status = .SCHEDULED := by
  have hinv0 : RaceInv p N (raceInit p) :=
    ⟨fun i _ => ⟨rfl, rfl⟩, Or.inl ⟨rfl, fun i => rfl⟩⟩
  have hinv := runRace_inv hboot hfree hm hev hinv0 hrun
  obtain ⟨htail, hphase⟩ := hinv
  rcases hphase with ⟨hdb, hres⟩ | ⟨hdb, w, hwN, hvw, hw, huni⟩
  · have := hdone 0 (by omega)
    rw [hres 0] at this
    cases this
  · refine ⟨w, hwN, hw, ?_, hdb, rfl⟩
    intro j hj hjw
    have hsome := hdone j hj
    rcases hjq : sf.res j with _ | c
    · rw [hjq] at hsome
      cases hsome
    · cases c
      · rfl
      · exact absurd hjq (huni j hjw)

/-- Witness for the amended C2: the concrete 2-call race (both validate,
then both write) over the `raceP0` fixture ends with one 201 and one 409. -/
theorem C2_exactly_one_wins_amended_witness :
    ∃ sf, runRace raceP0 (raceInit raceP0) raceEvs0 = some sf ∧
      ∃ i, i < 2 ∧ sf.res i = some true ∧
        (∀ j, j < 2 → j ≠ i → sf.res j = some false) ∧
        sf.db = raceP0.d0 ++ [raceRow raceP0] ∧ (raceRow raceP0).status = .SCHEDULED := by
  refine ⟨_, rfl, ?_⟩
  refine C2_exactly_one_wins_amended raceP0 2 raceEvs0 _ (by omega) (by decide)
    (by decide) (by decide) (by decide) rfl ?_
  intro i hi
  interval_cases i <;> rfl

end SAI
